import Mathlib

/-!
Verification development for the `llm-council` backend.

The definitions below are shallow embeddings of the Python sources under
`backend/`:

* `LlmCouncil.Gateway` embeds `backend/openrouter.py` (`query_model`,
  `query_model_stream`): the non-streaming query and the streaming retry
  loop, run against a scripted upstream.
* `LlmCouncil.Mux` embeds the SSE `event_generator` of
  `backend/main.py` (`send_message_stream`).
* `LlmCouncil.Council` models Stage-2 label assignment from the spec
  (the `council` module itself is not part of the analysed sources).
* `LlmCouncil.Curator` embeds the JSON-repair parsing pipeline of
  `backend/curator.py` (`analyze_conversation_for_updates`), together
  with a model of Python's `json` library parsers.
* `LlmCouncil.Storage` embeds `backend/storage.py`
  (`list_conversations`) over an explicit database state.
-/

namespace LlmCouncil

namespace Gateway

/-- One parsed SSE line of the upstream streaming response, as
`query_model_stream` distinguishes them:
* `nonData`: a line not starting with `"data: "` (skipped);
* `done`: the `data: [DONE]` sentinel;
* `malformed`: a `data: ` line whose payload fails `json.loads`
  (the `json.JSONDecodeError` branch, `continue`);
* `errorObj msg code`: a payload containing an `error` object with
  `message` and `code` fields;
* `dataDelta c r fin`: a normal payload with
  `choices[0].delta.content = c`, `choices[0].delta.reasoning = r`
  (empty string when absent) and `choices[0].finish_reason = fin`. -/
inductive Line where
  | nonData
  | done
  | malformed
  | errorObj (msg : String) (code : Int)
  | dataDelta (content reasoning : String) (fin : Option String)
  deriving DecidableEq, Repr

/-- Outcome of one connection attempt of the streaming client:
either an exception (`httpx.TimeoutException`, `httpx.HTTPStatusError`
from `raise_for_status`, or any other exception), or a connected
stream delivering a list of lines and then closing. -/
inductive Attempt where
  | timeoutExc
  | httpStatusExc (status : Nat)
  | otherExc (msg : String)
  | connected (lines : List Line)
  deriving DecidableEq, Repr

/-- ASCII lower-casing of a character (the behaviour of `str.lower`
on the ASCII range, which is all the retryability keywords use). -/
def lowerChar (c : Char) : Char :=
  if 65 ≤ c.toNat ∧ c.toNat ≤ 90 then Char.ofNat (c.toNat + 32) else c

/-- Whether `pat` is a prefix of `s` (character lists). -/
def startsWithB : List Char → List Char → Bool
  | [], _ => true
  | _ :: _, [] => false
  | a :: as, b :: bs => a == b && startsWithB as bs

/-- Whether `needle` occurs as a contiguous substring of the
character list — Python's `needle in haystack`. -/
def subSearch (needle : List Char) : List Char → Bool
  | [] => needle.isEmpty
  | c :: rest => startsWithB needle (c :: rest) || subSearch needle rest

/-- Substring test used to embed Python's `in` on strings. -/
def containsSub (s pat : String) : Bool :=
  subSearch pat.toList s.toList

/-- Lower-casing a string (embeds `error_msg.lower()`). -/
def lowerStr (s : String) : String :=
  String.mk (s.toList.map lowerChar)

/-- The retryability test of `query_model_stream` for an in-band error
object (source: `is_retryable = ('overloaded' in error_msg.lower() or
'rate' in error_msg.lower() or 'internal server' in error_msg.lower()
or error_code in [429, 500, 502, 503, 504])`). -/
def isRetryable (msg : String) (code : Int) : Bool :=
  containsSub (lowerStr msg) "overloaded" ||
  containsSub (lowerStr msg) "rate" ||
  containsSub (lowerStr msg) "internal server" ||
  (code == 429 || code == 500 || code == 502 || code == 503 || code == 504)

/-- Result of a full run of `query_model_stream`: the text chunks
yielded to the caller, the backoff sleeps performed (in seconds, in
order), and the number of connection attempts made. -/
structure StreamRun where
  chunks : List String
  waits : List Nat
  connects : Nat
  deriving DecidableEq, Repr

/-- The inner `async for line in response.aiter_lines()` loop of
`query_model_stream`.  Returns the chunks yielded while consuming the
lines, and `some w` iff the loop exited with `should_retry = True`
after sleeping `w` seconds (in-band retryable error with retries
remaining); `none` means the generator returned (on `[DONE]`, on a
yielded final error chunk, or on the stream closing). -/
def runLines (retries maxRetries : Nat) : List Line → List String × Option Nat
  | [] => ([], none)
  | Line.nonData :: rest => runLines retries maxRetries rest
  | Line.done :: _ => ([], none)
  | Line.malformed :: rest => runLines retries maxRetries rest
  | Line.errorObj msg code :: _ =>
      if isRetryable msg code ∧ retries < maxRetries then
        ([], some ((retries + 1) * 3))
      else
        (["[Error: " ++ msg ++ "]"], none)
  | Line.dataDelta c r _ :: rest =>
      let here := (if c = "" then [] else [c]) ++ (if r = "" then [] else [r])
      let p := runLines retries maxRetries rest
      (here ++ p.1, p.2)

/-- The `while retries <= max_retries` reconnection loop of
`query_model_stream`, run against the scripted list of connection
attempts (one script entry consumed per connection).  `timeout` is the
request timeout, used only in the timeout error message. -/
def runStream (timeout : Nat) (maxRetries : Nat) :
    List Attempt → Nat → StreamRun
  | [], _ => ⟨[], [], 0⟩
  | a :: rest, retries =>
      if retries > maxRetries then ⟨[], [], 0⟩
      else
        match a with
        | Attempt.timeoutExc =>
            ⟨["[Error: Timeout after " ++ toString timeout ++ "s]"], [], 1⟩
        | Attempt.httpStatusExc s =>
            ⟨["[Error: Status " ++ toString s ++ "]"], [], 1⟩
        | Attempt.otherExc m =>
            ⟨["[Error: " ++ m ++ "]"], [], 1⟩
        | Attempt.connected lines =>
            match runLines retries maxRetries lines with
            | (cs, none) => ⟨cs, [], 1⟩
            | (cs, some w) =>
                let next := runStream timeout maxRetries rest (retries + 1)
                ⟨cs ++ next.chunks, w :: next.waits, 1 + next.connects⟩

/-- `query_model_stream model messages timeout max_retries` against a
scripted upstream: the loop starts with `retries = 0`. -/
def queryModelStream (timeout maxRetries : Nat) (attempts : List Attempt) :
    StreamRun :=
  runStream timeout maxRetries attempts 0

/-- A line that neither terminates the stream nor is an in-band error
object: data deltas, non-`data:` lines and unparsable payloads. -/
def plainLine : Line → Bool
  | Line.nonData => true
  | Line.malformed => true
  | Line.dataDelta _ _ _ => true
  | _ => false

/-- The chunks that a list of plain lines contributes: for each data
delta, the `content` field then the `reasoning` field, when non-empty. -/
def chunksOf : List Line → List String
  | [] => []
  | Line.dataDelta c r _ :: rest =>
      ((if c = "" then [] else [c]) ++ (if r = "" then [] else [r])) ++ chunksOf rest
  | _ :: rest => chunksOf rest

/-- A well-terminated successful stream script: plain lines followed by
the `[DONE]` sentinel. -/
def okScript (lines : List Line) : Prop :=
  ∃ pre, (∀ l ∈ pre, plainLine l = true) ∧ lines = pre ++ [Line.done]

theorem chunksOf_append_done (pre : List Line) :
    chunksOf (pre ++ [Line.done]) = chunksOf pre := by
  induction pre with
  | nil => simp [chunksOf]
  | cons l pre ih => cases l <;> simp [chunksOf, ih]

theorem runLines_plain_append (retries maxRetries : Nat) (pre rest : List Line)
    (h : ∀ l ∈ pre, plainLine l = true) :
    runLines retries maxRetries (pre ++ rest) =
      ((chunksOf pre ++ (runLines retries maxRetries rest).1),
        (runLines retries maxRetries rest).2) := by
  induction pre with
  | nil => simp [chunksOf]
  | cons l pre ih =>
      have hl : plainLine l = true := h l (List.mem_cons_self l pre)
      have hpre : ∀ l' ∈ pre, plainLine l' = true :=
        fun l' hl' => h l' (List.mem_cons_of_mem l hl')
      cases l with
      | nonData => simpa [runLines, chunksOf] using ih hpre
      | malformed => simpa [runLines, chunksOf] using ih hpre
      | dataDelta c r fin =>
          simp only [List.cons_append, runLines, chunksOf, List.append_eq]
          rw [ih hpre]
          simp [List.append_assoc]
      | done => simp [plainLine] at hl
      | errorObj msg code => simp [plainLine] at hl

theorem runLines_okScript (retries maxRetries : Nat) (lines : List Line)
    (h : okScript lines) :
    runLines retries maxRetries lines = (chunksOf lines, none) := by
  obtain ⟨pre, hpre, rfl⟩ := h
  rw [runLines_plain_append retries maxRetries pre [Line.done] hpre]
  simp [runLines, chunksOf_append_done]

/-- Outcome of the single non-streaming `query_model` HTTP call: a
successful response whose `choices[0].message` has optional `content`
and `reasoning_details` fields, or one of the three exception classes
(`httpx.TimeoutException`, `httpx.HTTPStatusError`, any other
exception). -/
inductive QueryOutcome where
  | success (content : Option String) (reasoningDetails : Option String)
  | timeoutExc
  | httpStatusExc (status : Nat)
  | otherExc (msg : String)
  deriving DecidableEq, Repr

/-- `query_model`: returns `{'content': …, 'reasoning_details': …}` on
success, and `None` on every exception path (the three `except`
branches only differ in what they log). -/
def queryModel : QueryOutcome → Option (Option String × Option String)
  | QueryOutcome.success c r => some (c, r)
  | QueryOutcome.timeoutExc => none
  | QueryOutcome.httpStatusExc _ => none
  | QueryOutcome.otherExc _ => none

/-- Modelled from the spec: `query(model, messages, timeout) → Result`
"returns content and optional reasoning text, or a typed failure
(timeout / HTTP error / other)". -/
inductive SpecQueryResult where
  | ok (content : Option String) (reasoningDetails : Option String)
  | timeoutFailure
  | httpFailure (status : Nat)
  | otherFailure (msg : String)
  deriving DecidableEq, Repr

/-- Modelled from the spec: the typed variant of `query_model` the
Gateway contract describes. -/
def specQuery : QueryOutcome → SpecQueryResult
  | QueryOutcome.success c r => SpecQueryResult.ok c r
  | QueryOutcome.timeoutExc => SpecQueryResult.timeoutFailure
  | QueryOutcome.httpStatusExc s => SpecQueryResult.httpFailure s
  | QueryOutcome.otherExc m => SpecQueryResult.otherFailure m

/-- A failed (exception) outcome of `query_model`. -/
def isFailureOutcome : QueryOutcome → Bool
  | QueryOutcome.success _ _ => false
  | _ => true

/-- C1: with `max_retries = 2`, against an upstream that answers the
first two connection attempts with a retryable in-band error and
streams successfully on the third, `query_model_stream` makes exactly
3 connection attempts, sleeps 3 s and then 6 s before the second and
third attempts, and yields exactly the successful content. -/
theorem claim_C1 (timeout : Nat) (m1 : String) (c1 : Int) (m2 : String)
    (c2 : Int) (L : List Line)
    (h1 : isRetryable m1 c1 = true) (h2 : isRetryable m2 c2 = true)
    (hL : okScript L) :
    queryModelStream timeout 2
      [Attempt.connected [Line.errorObj m1 c1],
       Attempt.connected [Line.errorObj m2 c2],
       Attempt.connected L] =
      ⟨chunksOf L, [3, 6], 3⟩ := by
  have hL' := runLines_okScript 2 2 L hL
  simp [queryModelStream, runStream, runLines, h1, h2, hL']

/-- C1 witness: a concrete overloaded-twice-then-success upstream. -/
theorem claim_C1_witness :
    isRetryable "Overloaded" 0 = true ∧
    isRetryable "try again" 429 = true ∧
    okScript [Line.dataDelta "hello" "" none, Line.done] ∧
    queryModelStream 120 2
      [Attempt.connected [Line.errorObj "Overloaded" 0],
       Attempt.connected [Line.errorObj "try again" 429],
       Attempt.connected [Line.dataDelta "hello" "" none, Line.done]] =
      ⟨["hello"], [3, 6], 3⟩ := by
  refine ⟨by decide, by decide,
    ⟨[Line.dataDelta "hello" "" none], by decide, rfl⟩, ?_⟩
  have h := claim_C1 120 "Overloaded" 0 "try again" 429
    [Line.dataDelta "hello" "" none, Line.done] (by decide) (by decide)
    ⟨[Line.dataDelta "hello" "" none], by decide, rfl⟩
  rw [h]; decide

/-- C2 counterexample: content `"hi"` has been yielded when a
retryable in-band error arrives with retries remaining; the stream is
not treated as truncation — no error-marker chunk is appended.
Instead the Gateway reconnects and appends the retry's output after
the already-yielded prefix (total chunks `["hi", "world"]`, one 3 s
wait, two connections; no chunk is an error marker). -/
theorem claim_C2_counterexample :
    queryModelStream 120 2
      [Attempt.connected [Line.dataDelta "hi" "" none,
                          Line.errorObj "Overloaded" 0],
       Attempt.connected [Line.dataDelta "world" "" none, Line.done]] =
      ⟨["hi", "world"], [3], 2⟩ ∧
    (queryModelStream 120 2
      [Attempt.connected [Line.dataDelta "hi" "" none,
                          Line.errorObj "Overloaded" 0],
       Attempt.connected [Line.dataDelta "world" "" none, Line.done]]).chunks.all
      (fun c => !(startsWithB "[Error".toList c.toList)) = true := by
  constructor <;> decide

/-- C2 (amended): when content has already been yielded and an in-band
error object then arrives, the already-yielded output is preserved (it
remains a prefix of the final chunk sequence); a final error-marker
chunk is appended only when the error is non-retryable or retries are
exhausted — otherwise the Gateway reconnects and appends the retry's
output after the preserved prefix. -/
theorem claim_C2 (timeout maxRetries retries : Nat) (pre rest' : List Line)
    (msg : String) (code : Int) (attempts : List Attempt)
    (hpre : ∀ l ∈ pre, plainLine l = true) (hr : retries ≤ maxRetries) :
    (runStream timeout maxRetries
        (Attempt.connected (pre ++ Line.errorObj msg code :: rest') :: attempts)
        retries).chunks.take (chunksOf pre).length = chunksOf pre ∧
    (¬(isRetryable msg code = true ∧ retries < maxRetries) →
      (runStream timeout maxRetries
        (Attempt.connected (pre ++ Line.errorObj msg code :: rest') :: attempts)
        retries).chunks = chunksOf pre ++ ["[Error: " ++ msg ++ "]"]) := by
  have hng : ¬ retries > maxRetries := by omega
  have hrl := runLines_plain_append retries maxRetries pre
    (Line.errorObj msg code :: rest') hpre
  by_cases hcase : isRetryable msg code = true ∧ retries < maxRetries
  · have hrl2 : runLines retries maxRetries (Line.errorObj msg code :: rest') =
        ([], some ((retries + 1) * 3)) := by
      simp [runLines, hcase.1, hcase.2]
    rw [hrl2] at hrl
    constructor
    · simp [runStream, hng, hrl, List.take_left]
    · intro hc; exact absurd hcase hc
  · have hrl2 : runLines retries maxRetries (Line.errorObj msg code :: rest') =
        (["[Error: " ++ msg ++ "]"], none) := by
      simp only [runLines]
      rw [if_neg]
      intro hand
      exact hcase ⟨by simpa using hand.1, hand.2⟩
    rw [hrl2] at hrl
    constructor
    · simp [runStream, hng, hrl, List.take_left]
    · intro _; simp [runStream, hng, hrl]

/-- C2 witness: a non-retryable in-band error after `"hi"` was
yielded: the prefix is preserved and the error marker appended. -/
theorem claim_C2_witness :
    (∀ l ∈ [Line.dataDelta "hi" "" none], plainLine l = true) ∧
    (0 : Nat) ≤ 2 ∧
    ¬(isRetryable "bad request" 400 = true ∧ (0 : Nat) < 2) ∧
    (runStream 120 2
        [Attempt.connected ([Line.dataDelta "hi" "" none] ++
          Line.errorObj "bad request" 400 :: [])] 0).chunks.take
      (chunksOf [Line.dataDelta "hi" "" none]).length =
      chunksOf [Line.dataDelta "hi" "" none] ∧
    (runStream 120 2
        [Attempt.connected ([Line.dataDelta "hi" "" none] ++
          Line.errorObj "bad request" 400 :: [])] 0).chunks =
      chunksOf [Line.dataDelta "hi" "" none] ++ ["[Error: bad request]"] := by
  refine ⟨by decide, by decide, by decide, ?_, ?_⟩
  · exact (claim_C2 120 2 0 [Line.dataDelta "hi" "" none] []
      "bad request" 400 [] (by decide) (by decide)).1
  · exact (claim_C2 120 2 0 [Line.dataDelta "hi" "" none] []
      "bad request" 400 [] (by decide) (by decide)).2 (by decide)

/-- C5 counterexample: a connection-level HTTP 429 on the first
attempt, with `max_retries = 2` (retries remaining), does not trigger
backoff-and-reconnect: the Gateway immediately yields a final error
chunk and stops after a single connection, never reaching the
scripted successful second attempt. -/
theorem claim_C5_counterexample :
    queryModelStream 120 2
      [Attempt.httpStatusExc 429,
       Attempt.connected [Line.dataDelta "x" "" none, Line.done]] =
      ⟨["[Error: Status 429]"], [], 1⟩ := by decide

/-- C5 (amended): only in-band JSON error objects matching the
retryable classification (message containing "overloaded", "rate" or
"internal server", or code in {429, 500, 502, 503, 504}) trigger
backoff-and-reconnect when retries remain; every connection-level
HTTP status error — whatever its status — immediately yields a final
error chunk and stops after that single connection. -/
theorem claim_C5 (timeout maxRetries retries s : Nat) (msg : String)
    (code : Int) (pre rest' : List Line) (attempts : List Attempt)
    (hret : isRetryable msg code = true)
    (hlt : retries < maxRetries) (hpre : ∀ l ∈ pre, plainLine l = true) :
    runStream timeout maxRetries (Attempt.httpStatusExc s :: attempts) retries =
      ⟨["[Error: Status " ++ toString s ++ "]"], [], 1⟩ ∧
    runStream timeout maxRetries
        (Attempt.connected (pre ++ Line.errorObj msg code :: rest') :: attempts)
        retries =
      ⟨chunksOf pre ++ (runStream timeout maxRetries attempts (retries + 1)).chunks,
        (retries + 1) * 3 :: (runStream timeout maxRetries attempts (retries + 1)).waits,
        1 + (runStream timeout maxRetries attempts (retries + 1)).connects⟩ := by
  have hng : ¬ retries > maxRetries := by omega
  constructor
  · simp [runStream, hng]
  · have hrl := runLines_plain_append retries maxRetries pre
      (Line.errorObj msg code :: rest') hpre
    have hrl2 : runLines retries maxRetries (Line.errorObj msg code :: rest') =
        ([], some ((retries + 1) * 3)) := by
      simp [runLines, hret, hlt]
    rw [hrl2] at hrl
    simp [runStream, hng, hrl]

/-- C5 witness: a rate-limit in-band error with retries remaining is
retried; an HTTP 503 connection error is not. -/
theorem claim_C5_witness :
    isRetryable "rate limit exceeded" 0 = true ∧
    (0 : Nat) < 2 ∧
    (∀ l ∈ ([] : List Line), plainLine l = true) ∧
    runStream 120 2 [Attempt.httpStatusExc 503] 0 =
      ⟨["[Error: Status 503]"], [], 1⟩ ∧
    runStream 120 2
        [Attempt.connected ([] ++ Line.errorObj "rate limit exceeded" 0 :: []),
         Attempt.connected [Line.dataDelta "ok" "" none, Line.done]] 0 =
      ⟨chunksOf [] ++
          (runStream 120 2 [Attempt.connected [Line.dataDelta "ok" "" none, Line.done]] 1).chunks,
        (0 + 1) * 3 ::
          (runStream 120 2 [Attempt.connected [Line.dataDelta "ok" "" none, Line.done]] 1).waits,
        1 + (runStream 120 2 [Attempt.connected [Line.dataDelta "ok" "" none, Line.done]] 1).connects⟩ := by
  refine ⟨by decide, by decide, by decide, ?_, ?_⟩
  · exact (claim_C5 120 2 0 503 "rate limit exceeded" 0 [] []
      [Attempt.connected [Line.dataDelta "ok" "" none, Line.done]]
      (by decide) (by decide) (by decide)).1
  · exact (claim_C5 120 2 0 503 "rate limit exceeded" 0 [] []
      [Attempt.connected [Line.dataDelta "ok" "" none, Line.done]]
      (by decide) (by decide) (by decide)).2

/-- The kind tag of the spec's Gateway chunk contract. -/
inductive ChunkKind where
  | content
  | reasoning
  deriving DecidableEq, Repr

/-- Modelled from the spec: a Gateway stream chunk
`{kind: content|reasoning, text}`. -/
structure TaggedChunk where
  kind : ChunkKind
  text : String
  deriving DecidableEq, Repr

/-- Modelled from the spec: the tagged chunk sequence the Gateway
`stream` contract prescribes for a successful line script — `content`
deltas tagged `content`, `reasoning` deltas tagged `reasoning`. -/
def specChunksOf : List Line → List TaggedChunk
  | [] => []
  | Line.dataDelta c r _ :: rest =>
      ((if c = "" then [] else [TaggedChunk.mk ChunkKind.content c]) ++
       (if r = "" then [] else [TaggedChunk.mk ChunkKind.reasoning r])) ++
        specChunksOf rest
  | Line.done :: _ => []
  | _ :: rest => specChunksOf rest

/-- C6 counterexample: the chunks `query_model_stream` yields are
plain untagged strings, so a content-only upstream and a
reasoning-only upstream produce identical output, although the spec's
tagged chunk sequences differ.  No consumer of the code's chunks can
recover the `{kind: content|reasoning}` tag, and the concatenation of
content-kind chunks is not recoverable as the canonical answer. -/
theorem claim_C6_counterexample :
    queryModelStream 120 2
        [Attempt.connected [Line.dataDelta "X" "" none, Line.done]] =
      queryModelStream 120 2
        [Attempt.connected [Line.dataDelta "" "X" none, Line.done]] ∧
    specChunksOf [Line.dataDelta "X" "" none, Line.done] ≠
      specChunksOf [Line.dataDelta "" "X" none, Line.done] := by
  constructor <;> decide

/-- C6 (amended): both the `content` and the `reasoning` delta of an
upstream packet are surfaced to the caller, content first, but as
plain untagged text chunks; the yielded sequence interleaves
reasoning text into the same stream as answer text. -/
theorem claim_C6 (c r : String) (fin : Option String) (rest : List Line)
    (timeout maxRetries retries : Nat)
    (hrest : okScript rest) (hr : retries ≤ maxRetries) :
    (runStream timeout maxRetries
        [Attempt.connected (Line.dataDelta c r fin :: rest)] retries).chunks =
      (if c = "" then [] else [c]) ++ (if r = "" then [] else [r]) ++
        chunksOf rest := by
  have hng : ¬ retries > maxRetries := by omega
  have hrl : runLines retries maxRetries (Line.dataDelta c r fin :: rest) =
      (((if c = "" then [] else [c]) ++ (if r = "" then [] else [r])) ++
        chunksOf rest, none) := by
    simp [runLines, runLines_okScript retries maxRetries rest hrest]
  simp [runStream, hng, hrl, List.append_assoc]

/-- C6 witness: a packet carrying both an answer delta and a
reasoning delta yields both, content first. -/
theorem claim_C6_witness :
    okScript [Line.done] ∧ (0 : Nat) ≤ 2 ∧
    (runStream 120 2
        [Attempt.connected (Line.dataDelta "ans" "think" none :: [Line.done])]
        0).chunks =
      (if "ans" = "" then [] else ["ans"]) ++
        (if "think" = "" then [] else ["think"]) ++ chunksOf [Line.done] := by
  refine ⟨⟨[], by decide, rfl⟩, by decide, ?_⟩
  exact claim_C6 "ans" "think" none [Line.done] 120 2 0
    ⟨[], by decide, rfl⟩ (by decide)

/-- C9 counterexample: `query_model` returns `None` for a timeout, an
HTTP status error and any other exception alike — the caller cannot
distinguish the failure kinds, although the spec's typed result
does. -/
theorem claim_C9_counterexample :
    queryModel QueryOutcome.timeoutExc =
      queryModel (QueryOutcome.httpStatusExc 500) ∧
    queryModel QueryOutcome.timeoutExc =
      queryModel (QueryOutcome.otherExc "boom") ∧
    specQuery QueryOutcome.timeoutExc ≠
      specQuery (QueryOutcome.httpStatusExc 500) := by
  refine ⟨rfl, rfl, by decide⟩

/-- C9 (amended): `query_model` returns the response content together
with the optional reasoning details on success, and `None` on every
failure, with timeout / HTTP error / other distinguished only in log
output, not in the returned value. -/
theorem claim_C9 :
    (∀ c r, queryModel (QueryOutcome.success c r) = some (c, r)) ∧
    (∀ o, isFailureOutcome o = true → queryModel o = none) := by
  refine ⟨fun c r => rfl, fun o h => ?_⟩
  cases o with
  | success c r => simp [isFailureOutcome] at h
  | timeoutExc => rfl
  | httpStatusExc s => rfl
  | otherExc m => rfl

/-- C9 witness: the timeout failure maps to `None`. -/
theorem claim_C9_witness :
    isFailureOutcome QueryOutcome.timeoutExc = true ∧
    queryModel QueryOutcome.timeoutExc = none :=
  ⟨by decide, claim_C9.2 QueryOutcome.timeoutExc (by decide)⟩

end Gateway

namespace Mux

/-- Status of a Stage-1 model response. -/
inductive Status where
  | ok
  | error
  | timeout
  deriving DecidableEq, Repr

/-- A Stage-1 `ModelResponse`. -/
structure MResp where
  model : String
  text : String
  status : Status
  deriving DecidableEq, Repr

/-- A Stage-2 ranking submission. -/
structure RankSub where
  model : String
  rawText : String
  parsedRanking : List String
  deriving DecidableEq, Repr

/-- One entry of the Stage-2 aggregate ranking list. -/
structure AggEntry where
  model : String
  voteCount : Nat
  deriving DecidableEq, Repr

/-- The Stage-3 result dict captured from `stage3_complete`. -/
structure Stage3Data where
  model : String
  response : String
  deriving DecidableEq, Repr

/-- Internal events of `stage1_stream_responses`, as the dispatch in
`event_generator` distinguishes them (`other` stands for any event
type the `if`/`elif` chain does not forward). -/
inductive S1Ev where
  | token (model text : String)
  | modelComplete (model : String)
  | modelError (model msg : String)
  | allComplete (data : List MResp)
  | other
  deriving DecidableEq, Repr

/-- Internal events of `stage2_stream_rankings`. -/
inductive S2Ev where
  | token (model text : String)
  | modelComplete (model : String)
  | modelError (model msg : String)
  | allComplete (data : List RankSub)
      (labelToModel : List (String × String)) (aggregate : List AggEntry)
  | other
  deriving DecidableEq, Repr

/-- Internal events of `stage3_stream_synthesis`. -/
inductive S3Ev where
  | token (text : String)
  | errorEv (msg : String)
  | complete (data : Stage3Data)
  | other
  deriving DecidableEq, Repr

/-- The externally observable SSE events of `event_generator`. -/
inductive ExtEvent where
  | stage1_start
  | stage1_token (model text : String)
  | stage1_model_complete (model : String)
  | stage1_model_error (model msg : String)
  | stage1_complete (data : List MResp)
  | stage2_start
  | stage2_token (model text : String)
  | stage2_model_complete (model : String)
  | stage2_model_error (model msg : String)
  | stage2_complete (data : List RankSub)
      (labelToModel : List (String × String)) (aggregate : List AggEntry)
  | stage3_start
  | stage3_token (text : String)
  | stage3_error (msg : String)
  | stage3_complete (data : Stage3Data)
  | title_complete (title : String)
  | complete
  | errorEv (msg : String)
  deriving DecidableEq, Repr

/-- Calls `event_generator` makes on its collaborators (the
conversation store and the leaderboard recorder). -/
inductive Effect where
  | addUserMessage (content : String)
  | updateTitle (title : String)
  | addAssistantMessage (stage1 : List MResp) (stage2 : List RankSub)
      (stage3 : Option Stage3Data)
  | recordRankings (aggregate : List AggEntry)
  deriving DecidableEq, Repr

/-- One step of the observable trace: an SSE event yielded to the
caller, or a collaborator call. -/
inductive Item where
  | ev (e : ExtEvent)
  | eff (x : Effect)
  deriving DecidableEq, Repr

/-- The Stage-1 loop body: which external event (if any) each internal
event is forwarded as. -/
def fwd1 : S1Ev → List Item
  | S1Ev.token m t => [Item.ev (ExtEvent.stage1_token m t)]
  | S1Ev.modelComplete m => [Item.ev (ExtEvent.stage1_model_complete m)]
  | S1Ev.modelError m msg => [Item.ev (ExtEvent.stage1_model_error m msg)]
  | S1Ev.allComplete d => [Item.ev (ExtEvent.stage1_complete d)]
  | S1Ev.other => []

/-- The Stage-1 `async for` loop of `event_generator`. -/
def forward1 : List S1Ev → List Item
  | [] => []
  | ev :: rest => fwd1 ev ++ forward1 rest

/-- `stage1_results` after the Stage-1 loop: the data of the last
`stage1_all_complete` event (initialised to `[]`). -/
def captured1 (evs : List S1Ev) : List MResp :=
  evs.foldl (fun acc ev =>
    match ev with
    | S1Ev.allComplete d => d
    | _ => acc) []

/-- The Stage-2 loop body. -/
def fwd2 : S2Ev → List Item
  | S2Ev.token m t => [Item.ev (ExtEvent.stage2_token m t)]
  | S2Ev.modelComplete m => [Item.ev (ExtEvent.stage2_model_complete m)]
  | S2Ev.modelError m msg => [Item.ev (ExtEvent.stage2_model_error m msg)]
  | S2Ev.allComplete d l a => [Item.ev (ExtEvent.stage2_complete d l a)]
  | S2Ev.other => []

/-- The Stage-2 `async for` loop of `event_generator`. -/
def forward2 : List S2Ev → List Item
  | [] => []
  | ev :: rest => fwd2 ev ++ forward2 rest

/-- `stage2_results` after the Stage-2 loop. -/
def captured2 (evs : List S2Ev) : List RankSub :=
  evs.foldl (fun acc ev =>
    match ev with
    | S2Ev.allComplete d _ _ => d
    | _ => acc) []

/-- `aggregate_rankings` after the Stage-2 loop. -/
def captured2Agg (evs : List S2Ev) : List AggEntry :=
  evs.foldl (fun acc ev =>
    match ev with
    | S2Ev.allComplete _ _ a => a
    | _ => acc) []

/-- The Stage-3 loop body. -/
def fwd3 : S3Ev → List Item
  | S3Ev.token t => [Item.ev (ExtEvent.stage3_token t)]
  | S3Ev.errorEv msg => [Item.ev (ExtEvent.stage3_error msg)]
  | S3Ev.complete d => [Item.ev (ExtEvent.stage3_complete d)]
  | S3Ev.other => []

/-- The Stage-3 `async for` loop of `event_generator`. -/
def forward3 : List S3Ev → List Item
  | [] => []
  | ev :: rest => fwd3 ev ++ forward3 rest

/-- `stage3_result` after the Stage-3 loop (`none` is the initial
empty dict). -/
def captured3 (evs : List S3Ev) : Option Stage3Data :=
  evs.foldl (fun acc ev =>
    match ev with
    | S3Ev.complete d => some d
    | _ => acc) none

/-- The tail of `event_generator` after the Stage-3 loop succeeded:
await the title task (first message only), persist the assistant
message, record the leaderboard rankings, and emit `complete`. -/
def finishPart (isFirst : Bool) (title : String) (s1 : List S1Ev)
    (s2 : List S2Ev) (s3 : List S3Ev) : List Item :=
  (if isFirst then
    [Item.eff (Effect.updateTitle title),
     Item.ev (ExtEvent.title_complete title)]
   else []) ++
  Item.eff (Effect.addAssistantMessage (captured1 s1) (captured2 s2)
    (captured3 s3)) ::
  (if captured2Agg s2 = [] then []
   else [Item.eff (Effect.recordRankings (captured2Agg s2))]) ++
  [Item.ev ExtEvent.complete]

/-- The Stage-3 section of `event_generator`: `r3 = some m` models the
Stage-3 stream raising exception `m` after its yielded events (the
`except` clause emits the turn-level `error` event and the generator
stops). -/
def part3 (isFirst : Bool) (title : String) (s1 : List S1Ev)
    (s2 : List S2Ev) (s3 : List S3Ev) (r3 : Option String) : List Item :=
  Item.ev ExtEvent.stage3_start :: forward3 s3 ++
  (match r3 with
   | some m => [Item.ev (ExtEvent.errorEv m)]
   | none => finishPart isFirst title s1 s2 s3)

/-- The Stage-2 section of `event_generator`. -/
def part2 (isFirst : Bool) (title : String) (s1 : List S1Ev)
    (s2 : List S2Ev) (r2 : Option String) (s3 : List S3Ev)
    (r3 : Option String) : List Item :=
  Item.ev ExtEvent.stage2_start :: forward2 s2 ++
  (match r2 with
   | some m => [Item.ev (ExtEvent.errorEv m)]
   | none => part3 isFirst title s1 s2 s3 r3)

/-- The observable trace of one run of `event_generator`
(`send_message_stream`): add the user message, then the three stage
loops in sequence, then title/persistence/leaderboard/`complete`.
Each `rK = some m` models the stage-K internal stream raising
exception `m` after its yielded events, which the surrounding
`try`/`except` turns into a final turn-level `error` event. -/
def eventGenerator (content : String) (isFirst : Bool) (title : String)
    (s1 : List S1Ev) (r1 : Option String) (s2 : List S2Ev)
    (r2 : Option String) (s3 : List S3Ev) (r3 : Option String) :
    List Item :=
  Item.eff (Effect.addUserMessage content) ::
  Item.ev ExtEvent.stage1_start :: forward1 s1 ++
  (match r1 with
   | some m => [Item.ev (ExtEvent.errorEv m)]
   | none => part2 isFirst title s1 s2 r2 s3 r3)

/-- The SSE events of a trace, in order. -/
def eventsOf (tr : List Item) : List ExtEvent :=
  tr.filterMap fun it =>
    match it with
    | Item.ev e => some e
    | Item.eff _ => none

/-- The collaborator calls of a trace, in order. -/
def effectsOf (tr : List Item) : List Effect :=
  tr.filterMap fun it =>
    match it with
    | Item.eff x => some x
    | Item.ev _ => none

/-- A `stage1_*` event (including the `stage1_complete` boundary). -/
def isStage1Ev : ExtEvent → Bool
  | ExtEvent.stage1_start => true
  | ExtEvent.stage1_token _ _ => true
  | ExtEvent.stage1_model_complete _ => true
  | ExtEvent.stage1_model_error _ _ => true
  | ExtEvent.stage1_complete _ => true
  | _ => false

/-- A `stage2_*` event. -/
def isStage2Ev : ExtEvent → Bool
  | ExtEvent.stage2_start => true
  | ExtEvent.stage2_token _ _ => true
  | ExtEvent.stage2_model_complete _ => true
  | ExtEvent.stage2_model_error _ _ => true
  | ExtEvent.stage2_complete _ _ _ => true
  | _ => false

/-- A `stage3_*` event. -/
def isStage3Ev : ExtEvent → Bool
  | ExtEvent.stage3_start => true
  | ExtEvent.stage3_token _ => true
  | ExtEvent.stage3_error _ => true
  | ExtEvent.stage3_complete _ => true
  | _ => false

/-- The external stage-1 all-complete event. -/
def isStage1AllCompleteEv : ExtEvent → Bool
  | ExtEvent.stage1_complete _ => true
  | _ => false

/-- The external stage-2 all-complete event. -/
def isStage2AllCompleteEv : ExtEvent → Bool
  | ExtEvent.stage2_complete _ _ _ => true
  | _ => false

/-- The `add_assistant_message` store call. -/
def isSaveItem : Item → Bool
  | Item.eff (Effect.addAssistantMessage _ _ _) => true
  | _ => false

/-- A yielded stage event (any `stage1_*`, `stage2_*` or `stage3_*`). -/
def isStageEvItem : Item → Bool
  | Item.ev e => isStage1Ev e || isStage2Ev e || isStage3Ev e
  | Item.eff _ => false

theorem eventsOf_nil : eventsOf [] = [] := rfl

theorem eventsOf_cons_ev (e : ExtEvent) (l : List Item) :
    eventsOf (Item.ev e :: l) = e :: eventsOf l := rfl

theorem eventsOf_cons_eff (x : Effect) (l : List Item) :
    eventsOf (Item.eff x :: l) = eventsOf l := rfl

theorem eventsOf_append (l₁ l₂ : List Item) :
    eventsOf (l₁ ++ l₂) = eventsOf l₁ ++ eventsOf l₂ :=
  List.filterMap_append _ _ _

theorem effectsOf_nil : effectsOf [] = [] := rfl

theorem effectsOf_cons_ev (e : ExtEvent) (l : List Item) :
    effectsOf (Item.ev e :: l) = effectsOf l := rfl

theorem effectsOf_cons_eff (x : Effect) (l : List Item) :
    effectsOf (Item.eff x :: l) = x :: effectsOf l := rfl

theorem effectsOf_append (l₁ l₂ : List Item) :
    effectsOf (l₁ ++ l₂) = effectsOf l₁ ++ effectsOf l₂ :=
  List.filterMap_append _ _ _

/-- If a list splits as `l₁ ++ l₂` with no `Q`-element in `l₁` and no
`P`-element in `l₂`, then every `P`-position strictly precedes every
`Q`-position. -/
theorem before_of_split {α : Type} (P Q : α → Bool) (l l₁ l₂ : List α)
    (hl : l = l₁ ++ l₂)
    (h₁ : ∀ e ∈ l₁, Q e = false) (h₂ : ∀ e ∈ l₂, P e = false)
    (i j : Nat) (hi : i < l.length) (hj : j < l.length)
    (hP : P (l.get ⟨i, hi⟩) = true) (hQ : Q (l.get ⟨j, hj⟩) = true) :
    i < j := by
  subst hl
  induction l₁ generalizing i j with
  | nil =>
      exfalso
      have hmem : (([] : List α) ++ l₂).get ⟨i, hi⟩ ∈ l₂ :=
        List.get_mem _ _ _
      have hc := h₂ _ hmem
      rw [hP] at hc
      exact Bool.noConfusion hc
  | cons a l₁ ih =>
      cases i with
      | zero =>
          cases j with
          | zero =>
              exfalso
              have hQa : Q a = true := hQ
              have hc := h₁ a (List.mem_cons_self a l₁)
              rw [hQa] at hc
              exact Bool.noConfusion hc
          | succ j' => exact Nat.succ_pos j'
      | succ i' =>
          cases j with
          | zero =>
              exfalso
              have hQa : Q a = true := hQ
              have hc := h₁ a (List.mem_cons_self a l₁)
              rw [hQa] at hc
              exact Bool.noConfusion hc
          | succ j' =>
              exact Nat.succ_lt_succ
                (ih (fun e he => h₁ e (List.mem_cons_of_mem a he)) i' j'
                  (Nat.lt_of_succ_lt_succ hi) (Nat.lt_of_succ_lt_succ hj)
                  hP hQ)

theorem forward1_items (s1 : List S1Ev) :
    ∀ it ∈ forward1 s1, ∃ e, it = Item.ev e ∧ isStage1Ev e = true := by
  induction s1 with
  | nil => intro it hit; simp [forward1] at hit
  | cons ev rest ih =>
      intro it hit
      rw [forward1] at hit
      rcases List.mem_append.mp hit with h | h
      · cases ev <;> simp [fwd1] at h <;> exact ⟨_, h, rfl⟩
      · exact ih it h

theorem forward2_items (s2 : List S2Ev) :
    ∀ it ∈ forward2 s2, ∃ e, it = Item.ev e ∧ isStage2Ev e = true := by
  induction s2 with
  | nil => intro it hit; simp [forward2] at hit
  | cons ev rest ih =>
      intro it hit
      rw [forward2] at hit
      rcases List.mem_append.mp hit with h | h
      · cases ev <;> simp [fwd2] at h <;> exact ⟨_, h, rfl⟩
      · exact ih it h

theorem forward3_items (s3 : List S3Ev) :
    ∀ it ∈ forward3 s3, ∃ e, it = Item.ev e ∧ isStage3Ev e = true := by
  induction s3 with
  | nil => intro it hit; simp [forward3] at hit
  | cons ev rest ih =>
      intro it hit
      rw [forward3] at hit
      rcases List.mem_append.mp hit with h | h
      · cases ev <;> simp [fwd3] at h <;> exact ⟨_, h, rfl⟩
      · exact ih it h

theorem forward1_events (s1 : List S1Ev) :
    ∀ e ∈ eventsOf (forward1 s1), isStage1Ev e = true := by
  intro e he
  rcases List.mem_filterMap.mp he with ⟨it, hit, hmap⟩
  rcases forward1_items s1 it hit with ⟨e', rfl, he'⟩
  cases hmap
  exact he'

theorem forward2_events (s2 : List S2Ev) :
    ∀ e ∈ eventsOf (forward2 s2), isStage2Ev e = true := by
  intro e he
  rcases List.mem_filterMap.mp he with ⟨it, hit, hmap⟩
  rcases forward2_items s2 it hit with ⟨e', rfl, he'⟩
  cases hmap
  exact he'

theorem forward3_events (s3 : List S3Ev) :
    ∀ e ∈ eventsOf (forward3 s3), isStage3Ev e = true := by
  intro e he
  rcases List.mem_filterMap.mp he with ⟨it, hit, hmap⟩
  rcases forward3_items s3 it hit with ⟨e', rfl, he'⟩
  cases hmap
  exact he'

theorem stage1Ev_class {e : ExtEvent} (h : isStage1Ev e = true) :
    isStage2Ev e = false ∧ isStage3Ev e = false ∧
      isStage2AllCompleteEv e = false := by
  cases e <;> simp [isStage1Ev] at h <;>
    simp [isStage2Ev, isStage3Ev, isStage2AllCompleteEv]

theorem stage2Ev_class {e : ExtEvent} (h : isStage2Ev e = true) :
    isStage1AllCompleteEv e = false ∧ isStage3Ev e = false := by
  cases e <;> simp [isStage2Ev] at h <;>
    simp [isStage1AllCompleteEv, isStage3Ev]

theorem stage3Ev_class {e : ExtEvent} (h : isStage3Ev e = true) :
    isStage1AllCompleteEv e = false ∧ isStage2AllCompleteEv e = false ∧
      isStage2Ev e = false := by
  cases e <;> simp [isStage3Ev] at h <;>
    simp [isStage1AllCompleteEv, isStage2AllCompleteEv, isStage2Ev]

theorem finishPart_events (isFirst : Bool) (title : String) (s1 : List S1Ev)
    (s2 : List S2Ev) (s3 : List S3Ev) :
    ∀ e ∈ eventsOf (finishPart isFirst title s1 s2 s3),
      e = ExtEvent.title_complete title ∨ e = ExtEvent.complete := by
  intro e he
  by_cases hA : captured2Agg s2 = [] <;> cases isFirst <;>
    simp [finishPart, hA, eventsOf_append, eventsOf_cons_ev,
      eventsOf_cons_eff] at he <;> tauto

theorem part3_events (isFirst : Bool) (title : String) (s1 : List S1Ev)
    (s2 : List S2Ev) (s3 : List S3Ev) (r3 : Option String) :
    ∀ e ∈ eventsOf (part3 isFirst title s1 s2 s3 r3),
      isStage1AllCompleteEv e = false ∧ isStage2AllCompleteEv e = false ∧
        isStage2Ev e = false := by
  intro e he
  rw [part3.eq_def] at he
  cases r3 with
  | some m =>
      simp [eventsOf_append, eventsOf_cons_ev, eventsOf_nil] at he
      rcases he with rfl | he | rfl
      · exact ⟨rfl, rfl, rfl⟩
      · exact stage3Ev_class (forward3_events s3 e he)
      · exact ⟨rfl, rfl, rfl⟩
  | none =>
      simp [eventsOf_append, eventsOf_cons_ev, eventsOf_nil] at he
      rcases he with rfl | he | he
      · exact ⟨rfl, rfl, rfl⟩
      · exact stage3Ev_class (forward3_events s3 e he)
      · rcases finishPart_events isFirst title s1 s2 s3 e he with rfl | rfl
        · exact ⟨rfl, rfl, rfl⟩
        · exact ⟨rfl, rfl, rfl⟩

theorem part2_no_stage1_all (isFirst : Bool) (title : String)
    (s1 : List S1Ev) (s2 : List S2Ev) (r2 : Option String) (s3 : List S3Ev)
    (r3 : Option String) :
    ∀ e ∈ eventsOf (part2 isFirst title s1 s2 r2 s3 r3),
      isStage1AllCompleteEv e = false := by
  intro e he
  rw [part2.eq_def] at he
  cases r2 with
  | some m =>
      simp [eventsOf_append, eventsOf_cons_ev, eventsOf_nil] at he
      rcases he with rfl | he | rfl
      · rfl
      · exact (stage2Ev_class (forward2_events s2 e he)).1
      · rfl
  | none =>
      simp [eventsOf_append, eventsOf_cons_ev, eventsOf_nil] at he
      rcases he with rfl | he | he
      · rfl
      · exact (stage2Ev_class (forward2_events s2 e he)).1
      · exact (part3_events isFirst title s1 s2 s3 r3 e he).1

/-- The SSE events of one full `event_generator` run. -/
def genEvents (content : String) (isFirst : Bool) (title : String)
    (s1 : List S1Ev) (r1 : Option String) (s2 : List S2Ev)
    (r2 : Option String) (s3 : List S3Ev) (r3 : Option String) :
    List ExtEvent :=
  eventsOf (eventGenerator content isFirst title s1 r1 s2 r2 s3 r3)

theorem forward1_no_save (s1 : List S1Ev) :
    ∀ it ∈ forward1 s1, isSaveItem it = false := by
  intro it hit
  rcases forward1_items s1 it hit with ⟨e, rfl, _⟩
  rfl

theorem forward2_no_save (s2 : List S2Ev) :
    ∀ it ∈ forward2 s2, isSaveItem it = false := by
  intro it hit
  rcases forward2_items s2 it hit with ⟨e, rfl, _⟩
  rfl

theorem forward3_no_save (s3 : List S3Ev) :
    ∀ it ∈ forward3 s3, isSaveItem it = false := by
  intro it hit
  rcases forward3_items s3 it hit with ⟨e, rfl, _⟩
  rfl

theorem effectsOf_forward1 (s1 : List S1Ev) : effectsOf (forward1 s1) = [] := by
  induction s1 with
  | nil => rfl
  | cons ev rest ih =>
      cases ev <;>
        simp [forward1, fwd1, effectsOf_append, effectsOf_cons_ev,
          effectsOf_nil, ih]

theorem effectsOf_forward2 (s2 : List S2Ev) : effectsOf (forward2 s2) = [] := by
  induction s2 with
  | nil => rfl
  | cons ev rest ih =>
      cases ev <;>
        simp [forward2, fwd2, effectsOf_append, effectsOf_cons_ev,
          effectsOf_nil, ih]

theorem effectsOf_forward3 (s3 : List S3Ev) : effectsOf (forward3 s3) = [] := by
  induction s3 with
  | nil => rfl
  | cons ev rest ih =>
      cases ev <;>
        simp [forward3, fwd3, effectsOf_append, effectsOf_cons_ev,
          effectsOf_nil, ih]

/-- The collaborator calls of one run: the user message is always
stored first; the title update, the assistant message and the
leaderboard recording happen only when no stage raised. -/
theorem effectsOf_gen (content : String) (isFirst : Bool) (title : String)
    (s1 : List S1Ev) (r1 : Option String) (s2 : List S2Ev)
    (r2 : Option String) (s3 : List S3Ev) (r3 : Option String) :
    effectsOf (eventGenerator content isFirst title s1 r1 s2 r2 s3 r3) =
      Effect.addUserMessage content ::
        (match r1, r2, r3 with
         | none, none, none =>
             (if isFirst then [Effect.updateTitle title] else []) ++
             Effect.addAssistantMessage (captured1 s1) (captured2 s2)
               (captured3 s3) ::
             (if captured2Agg s2 = [] then []
              else [Effect.recordRankings (captured2Agg s2)])
         | _, _, _ => []) := by
  cases r1 <;> cases r2 <;> cases r3 <;> cases isFirst <;>
    by_cases hA : captured2Agg s2 = [] <;>
      simp [eventGenerator, part2, part3, finishPart, hA,
        effectsOf_append, effectsOf_cons_ev, effectsOf_cons_eff,
        effectsOf_nil, effectsOf_forward1, effectsOf_forward2,
        effectsOf_forward3]

/-- C3: stage boundaries in the multiplexed external event sequence
are total — every `stage2_*` event comes strictly after every
stage-1 all-complete event, and every `stage3_*` event comes strictly
after every stage-2 all-complete event, for arbitrary internal stage
streams and arbitrary raise points. -/
theorem claim_C3 (content : String) (isFirst : Bool) (title : String)
    (s1 : List S1Ev) (r1 : Option String) (s2 : List S2Ev)
    (r2 : Option String) (s3 : List S3Ev) (r3 : Option String) :
    (∀ i j
      (hi : i < (genEvents content isFirst title s1 r1 s2 r2 s3 r3).length)
      (hj : j < (genEvents content isFirst title s1 r1 s2 r2 s3 r3).length),
      isStage1AllCompleteEv
        ((genEvents content isFirst title s1 r1 s2 r2 s3 r3).get ⟨i, hi⟩) = true →
      isStage2Ev
        ((genEvents content isFirst title s1 r1 s2 r2 s3 r3).get ⟨j, hj⟩) = true →
      i < j) ∧
    (∀ i j
      (hi : i < (genEvents content isFirst title s1 r1 s2 r2 s3 r3).length)
      (hj : j < (genEvents content isFirst title s1 r1 s2 r2 s3 r3).length),
      isStage2AllCompleteEv
        ((genEvents content isFirst title s1 r1 s2 r2 s3 r3).get ⟨i, hi⟩) = true →
      isStage3Ev
        ((genEvents content isFirst title s1 r1 s2 r2 s3 r3).get ⟨j, hj⟩) = true →
      i < j) := by
  constructor
  · intro i j hi hj hP hQ
    cases r1 with
    | some m =>
        refine before_of_split isStage1AllCompleteEv isStage2Ev _
          (ExtEvent.stage1_start ::
            (eventsOf (forward1 s1) ++ [ExtEvent.errorEv m])) []
          ?_ ?_ ?_ i j hi hj hP hQ
        · simp [genEvents, eventGenerator, eventsOf_cons_eff,
            eventsOf_cons_ev, eventsOf_append, eventsOf_nil]
        · intro e he
          rcases List.mem_cons.mp he with rfl | he
          · rfl
          rcases List.mem_append.mp he with he | he
          · exact (stage1Ev_class (forward1_events s1 e he)).1
          · simp at he; subst he; rfl
        · intro e he
          exact absurd he (List.not_mem_nil e)
    | none =>
        refine before_of_split isStage1AllCompleteEv isStage2Ev _
          (ExtEvent.stage1_start :: eventsOf (forward1 s1))
          (eventsOf (part2 isFirst title s1 s2 r2 s3 r3))
          ?_ ?_ ?_ i j hi hj hP hQ
        · simp [genEvents, eventGenerator, eventsOf_cons_eff,
            eventsOf_cons_ev, eventsOf_append, eventsOf_nil]
        · intro e he
          rcases List.mem_cons.mp he with rfl | he
          · rfl
          · exact (stage1Ev_class (forward1_events s1 e he)).1
        · exact part2_no_stage1_all isFirst title s1 s2 r2 s3 r3
  · intro i j hi hj hP hQ
    cases r1 with
    | some m =>
        refine before_of_split isStage2AllCompleteEv isStage3Ev _
          (ExtEvent.stage1_start ::
            (eventsOf (forward1 s1) ++ [ExtEvent.errorEv m])) []
          ?_ ?_ ?_ i j hi hj hP hQ
        · simp [genEvents, eventGenerator, eventsOf_cons_eff,
            eventsOf_cons_ev, eventsOf_append, eventsOf_nil]
        · intro e he
          rcases List.mem_cons.mp he with rfl | he
          · rfl
          rcases List.mem_append.mp he with he | he
          · exact (stage1Ev_class (forward1_events s1 e he)).2.1
          · simp at he; subst he; rfl
        · intro e he
          exact absurd he (List.not_mem_nil e)
    | none =>
        cases r2 with
        | some m =>
            refine before_of_split isStage2AllCompleteEv isStage3Ev _
              (ExtEvent.stage1_start ::
                (eventsOf (forward1 s1) ++
                  ExtEvent.stage2_start ::
                    (eventsOf (forward2 s2) ++ [ExtEvent.errorEv m]))) []
              ?_ ?_ ?_ i j hi hj hP hQ
            · simp [genEvents, eventGenerator, part2, eventsOf_cons_eff,
                eventsOf_cons_ev, eventsOf_append, eventsOf_nil]
            · intro e he
              rcases List.mem_cons.mp he with rfl | he
              · rfl
              rcases List.mem_append.mp he with he | he
              · exact (stage1Ev_class (forward1_events s1 e he)).2.1
              rcases List.mem_cons.mp he with rfl | he
              · rfl
              rcases List.mem_append.mp he with he | he
              · exact (stage2Ev_class (forward2_events s2 e he)).2
              · simp at he; subst he; rfl
            · intro e he
              exact absurd he (List.not_mem_nil e)
        | none =>
            refine before_of_split isStage2AllCompleteEv isStage3Ev _
              (ExtEvent.stage1_start ::
                (eventsOf (forward1 s1) ++
                  ExtEvent.stage2_start :: eventsOf (forward2 s2)))
              (eventsOf (part3 isFirst title s1 s2 s3 r3))
              ?_ ?_ ?_ i j hi hj hP hQ
            · simp [genEvents, eventGenerator, part2, eventsOf_cons_eff,
                eventsOf_cons_ev, eventsOf_append, eventsOf_nil]
            · intro e he
              rcases List.mem_cons.mp he with rfl | he
              · rfl
              rcases List.mem_append.mp he with he | he
              · exact (stage1Ev_class (forward1_events s1 e he)).2.1
              rcases List.mem_cons.mp he with rfl | he
              · rfl
              · exact (stage2Ev_class (forward2_events s2 e he)).2
            · intro e he
              exact (part3_events isFirst title s1 s2 s3 r3 e he).2.1

/-- A concrete demonstration run for the ordering claims: one Stage-1
all-complete, one Stage-2 all-complete, no raises. -/
def muxDemoEvents : List ExtEvent :=
  genEvents "q" false "t" [S1Ev.allComplete []] none
    [S2Ev.allComplete [] [] []] none [] none

/-- C3 witness: in the demonstration run, the stage-1 all-complete
event (index 1) precedes the stage-2 all-complete event (index 3),
which precedes the stage-3 start event (index 4). -/
theorem claim_C3_witness :
    isStage1AllCompleteEv (muxDemoEvents.get ⟨1, by decide⟩) = true ∧
    isStage2Ev (muxDemoEvents.get ⟨3, by decide⟩) = true ∧
    isStage2AllCompleteEv (muxDemoEvents.get ⟨3, by decide⟩) = true ∧
    isStage3Ev (muxDemoEvents.get ⟨4, by decide⟩) = true ∧
    1 < 3 ∧ 3 < 4 := by
  refine ⟨by decide, by decide, by decide, by decide, ?_, ?_⟩
  · exact (claim_C3 "q" false "t" [S1Ev.allComplete []] none
      [S2Ev.allComplete [] [] []] none [] none).1 1 3
      (by decide) (by decide) (by decide) (by decide)
  · exact (claim_C3 "q" false "t" [S1Ev.allComplete []] none
      [S2Ev.allComplete [] [] []] none [] none).2 3 4
      (by decide) (by decide) (by decide) (by decide)

/-- C8 counterexample: the Stage-2 stream raises (`"boom"`) after
Stage 1 completed with a non-empty response set; `event_generator`
emits only the turn-level `error` event and never calls
`add_assistant_message` — the partial turn data is not handed to the
conversation store, contradicting "upon terminal mid-turn failure, it
is handed over with whatever partial data exists". -/
theorem claim_C8_counterexample :
    effectsOf (eventGenerator "q" false "t"
        [S1Ev.allComplete [MResp.mk "model-a" "partial answer" Status.ok]]
        none [] (some "boom") [] none) =
      [Effect.addUserMessage "q"] ∧
    captured1 [S1Ev.allComplete [MResp.mk "model-a" "partial answer" Status.ok]] ≠
      [] := by
  constructor <;> decide

/-- C8 (amended): the assembled turn is handed to the conversation
store exactly when all three stages resolve without raising, with the
captured Stage-1/2/3 data, and any store hand-off comes strictly after
every stage event; upon terminal mid-turn failure (a stage raising)
the turn is not handed over at all — only the user message added at
turn start was stored. -/
theorem claim_C8 (content : String) (isFirst : Bool) (title : String)
    (s1 : List S1Ev) (r1 : Option String) (s2 : List S2Ev)
    (r2 : Option String) (s3 : List S3Ev) (r3 : Option String) :
    ((Effect.addAssistantMessage (captured1 s1) (captured2 s2) (captured3 s3) ∈
        effectsOf (eventGenerator content isFirst title s1 r1 s2 r2 s3 r3)) ↔
      (r1 = none ∧ r2 = none ∧ r3 = none)) ∧
    (∀ a b c, Effect.addAssistantMessage a b c ∈
        effectsOf (eventGenerator content isFirst title s1 r1 s2 r2 s3 r3) →
      a = captured1 s1 ∧ b = captured2 s2 ∧ c = captured3 s3) ∧
    (∀ i j
      (hi : i < (eventGenerator content isFirst title s1 r1 s2 r2 s3 r3).length)
      (hj : j < (eventGenerator content isFirst title s1 r1 s2 r2 s3 r3).length),
      isStageEvItem
        ((eventGenerator content isFirst title s1 r1 s2 r2 s3 r3).get ⟨i, hi⟩) = true →
      isSaveItem
        ((eventGenerator content isFirst title s1 r1 s2 r2 s3 r3).get ⟨j, hj⟩) = true →
      i < j) := by
  refine ⟨?_, ?_, ?_⟩
  · rw [effectsOf_gen]
    cases r1 <;> cases r2 <;> cases r3 <;>
      by_cases hA : captured2Agg s2 = [] <;> simp [hA]
  · intro a b c h
    rw [effectsOf_gen] at h
    cases r1 <;> cases r2 <;> cases r3 <;> cases isFirst <;>
      by_cases hA : captured2Agg s2 = [] <;> simp [hA] at h <;>
        exact ⟨h.1, h.2.1, h.2.2⟩
  · intro i j hi hj hP hQ
    cases r1 with
    | some m =>
        refine before_of_split isStageEvItem isSaveItem _
          (Item.eff (Effect.addUserMessage content) ::
            Item.ev ExtEvent.stage1_start ::
            (forward1 s1 ++ [Item.ev (ExtEvent.errorEv m)])) []
          ?_ ?_ ?_ i j hi hj hP hQ
        · simp [eventGenerator]
        · intro it hit
          rcases List.mem_cons.mp hit with rfl | hit
          · rfl
          rcases List.mem_cons.mp hit with rfl | hit
          · rfl
          rcases List.mem_append.mp hit with hit | hit
          · exact forward1_no_save s1 it hit
          · simp at hit; subst hit; rfl
        · intro it hit
          exact absurd hit (List.not_mem_nil it)
    | none =>
        cases r2 with
        | some m =>
            refine before_of_split isStageEvItem isSaveItem _
              (Item.eff (Effect.addUserMessage content) ::
                Item.ev ExtEvent.stage1_start ::
                (forward1 s1 ++
                  Item.ev ExtEvent.stage2_start ::
                  (forward2 s2 ++ [Item.ev (ExtEvent.errorEv m)]))) []
              ?_ ?_ ?_ i j hi hj hP hQ
            · simp [eventGenerator, part2]
            · intro it hit
              rcases List.mem_cons.mp hit with rfl | hit
              · rfl
              rcases List.mem_cons.mp hit with rfl | hit
              · rfl
              rcases List.mem_append.mp hit with hit | hit
              · exact forward1_no_save s1 it hit
              rcases List.mem_cons.mp hit with rfl | hit
              · rfl
              rcases List.mem_append.mp hit with hit | hit
              · exact forward2_no_save s2 it hit
              · simp at hit; subst hit; rfl
            · intro it hit
              exact absurd hit (List.not_mem_nil it)
        | none =>
            cases r3 with
            | some m =>
                refine before_of_split isStageEvItem isSaveItem _
                  (Item.eff (Effect.addUserMessage content) ::
                    Item.ev ExtEvent.stage1_start ::
                    (forward1 s1 ++
                      Item.ev ExtEvent.stage2_start ::
                      (forward2 s2 ++
                        Item.ev ExtEvent.stage3_start ::
                        (forward3 s3 ++ [Item.ev (ExtEvent.errorEv m)])))) []
                  ?_ ?_ ?_ i j hi hj hP hQ
                · simp [eventGenerator, part2, part3]
                · intro it hit
                  rcases List.mem_cons.mp hit with rfl | hit
                  · rfl
                  rcases List.mem_cons.mp hit with rfl | hit
                  · rfl
                  rcases List.mem_append.mp hit with hit | hit
                  · exact forward1_no_save s1 it hit
                  rcases List.mem_cons.mp hit with rfl | hit
                  · rfl
                  rcases List.mem_append.mp hit with hit | hit
                  · exact forward2_no_save s2 it hit
                  rcases List.mem_cons.mp hit with rfl | hit
                  · rfl
                  rcases List.mem_append.mp hit with hit | hit
                  · exact forward3_no_save s3 it hit
                  · simp at hit; subst hit; rfl
                · intro it hit
                  exact absurd hit (List.not_mem_nil it)
            | none =>
                refine before_of_split isStageEvItem isSaveItem _
                  (Item.eff (Effect.addUserMessage content) ::
                    Item.ev ExtEvent.stage1_start ::
                    (forward1 s1 ++
                      Item.ev ExtEvent.stage2_start ::
                      (forward2 s2 ++
                        Item.ev ExtEvent.stage3_start ::
                        (forward3 s3 ++
                          (if isFirst then
                            [Item.eff (Effect.updateTitle title),
                             Item.ev (ExtEvent.title_complete title)]
                           else [])))))
                  (Item.eff (Effect.addAssistantMessage (captured1 s1)
                      (captured2 s2) (captured3 s3)) ::
                    ((if captured2Agg s2 = [] then []
                      else [Item.eff (Effect.recordRankings (captured2Agg s2))]) ++
                      [Item.ev ExtEvent.complete]))
                  ?_ ?_ ?_ i j hi hj hP hQ
                · simp [eventGenerator, part2, part3, finishPart]
                · intro it hit
                  rcases List.mem_cons.mp hit with rfl | hit
                  · rfl
                  rcases List.mem_cons.mp hit with rfl | hit
                  · rfl
                  rcases List.mem_append.mp hit with hit | hit
                  · exact forward1_no_save s1 it hit
                  rcases List.mem_cons.mp hit with rfl | hit
                  · rfl
                  rcases List.mem_append.mp hit with hit | hit
                  · exact forward2_no_save s2 it hit
                  rcases List.mem_cons.mp hit with rfl | hit
                  · rfl
                  rcases List.mem_append.mp hit with hit | hit
                  · exact forward3_no_save s3 it hit
                  · cases isFirst <;> simp at hit
                    rcases hit with rfl | rfl <;> rfl
                · intro it hit
                  rcases List.mem_cons.mp hit with rfl | hit
                  · rfl
                  rcases List.mem_append.mp hit with hit | hit
                  · by_cases hA : captured2Agg s2 = [] <;> simp [hA] at hit
                    subst hit; rfl
                  · simp at hit; subst hit; rfl

/-- C8 witness: with no stage raising, the captured turn is handed to
the store. -/
theorem claim_C8_witness :
    ((none : Option String) = none ∧ (none : Option String) = none ∧
      (none : Option String) = none) ∧
    Effect.addAssistantMessage
        (captured1 [S1Ev.allComplete [MResp.mk "model-a" "answer" Status.ok]])
        (captured2 []) (captured3 [S3Ev.complete (Stage3Data.mk "chair" "final")]) ∈
      effectsOf (eventGenerator "q" false "t"
        [S1Ev.allComplete [MResp.mk "model-a" "answer" Status.ok]] none
        [] none [S3Ev.complete (Stage3Data.mk "chair" "final")] none) :=
  ⟨⟨rfl, rfl, rfl⟩,
    (claim_C8 "q" false "t"
      [S1Ev.allComplete [MResp.mk "model-a" "answer" Status.ok]] none
      [] none [S3Ev.complete (Stage3Data.mk "chair" "final")] none).1.mpr
      ⟨rfl, rfl, rfl⟩⟩

end Mux

namespace Council

open Mux (MResp Status)

/-- Modelled from the spec: the opaque Stage-2 label for the `i`-th
`ok` response — the tokens `A`, `B`, … assigned in roster order (the
`council` module itself is not among the analysed sources). -/
def labelOf (i : Nat) : String :=
  String.mk [Char.ofNat (65 + i)]

/-- Modelled from the spec: the `ok` subset of the Stage-1 response
set, in roster order. -/
def okResponses (stage1 : List MResp) : List MResp :=
  stage1.filter (fun r => r.status == Status.ok)

/-- Modelled from the spec: the Stage-2 label↔model mapping — labels
assigned in roster order to exactly the `ok` Stage-1 responses. -/
def labelToModel (stage1 : List MResp) : List (String × String) :=
  (okResponses stage1).enum.map (fun p => (labelOf p.1, p.2.model))

/-- Modelled from the spec: the responses Stage 2 ranks — only `ok`
Stage-1 responses. -/
def stage2Inputs (stage1 : List MResp) : List MResp :=
  okResponses stage1

/-- Modelled from the spec: the responses the Stage-3 synthesizer
sees — only `ok` Stage-1 responses (§3 invariant). -/
def stage3Inputs (stage1 : List MResp) : List MResp :=
  okResponses stage1

theorem labelToModel_models (stage1 : List MResp) :
    (labelToModel stage1).map Prod.snd =
      (okResponses stage1).map (fun r => r.model) := by
  unfold labelToModel
  rw [List.map_map]
  rw [show ((fun p : String × String => p.2) ∘
      (fun p : Nat × MResp => (labelOf p.1, p.2.model))) =
    ((fun r : MResp => r.model) ∘ Prod.snd) from rfl]
  rw [← List.map_map, List.enum_map_snd]

theorem labelsUpTo_nodup (n : Nat) (hn : n ≤ 26) :
    ((List.range n).map labelOf).Nodup := by
  have h26 : ((List.range 26).map labelOf).Nodup := by decide
  have hr : List.range n = (List.range 26).take n := by
    rw [List.take_range, Nat.min_eq_left hn]
  rw [hr, List.map_take]
  exact List.Nodup.sublist (List.take_sublist _ _) h26

/-- C4: the Stage-2 label↔model mapping is a bijection over exactly
the `ok` Stage-1 responses — every `ok` response gets exactly one
label (in roster order), the labels are pairwise distinct, no model
with status `error` or `timeout` receives a label, and Stage 2 and
Stage 3 operate only on `ok` Stage-1 responses. -/
theorem claim_C4 (stage1 : List MResp)
    (hlen : (okResponses stage1).length ≤ 26)
    (hnd : (stage1.map (fun r => r.model)).Nodup) :
    ((labelToModel stage1).map Prod.snd =
      (okResponses stage1).map (fun r => r.model)) ∧
    ((labelToModel stage1).map Prod.fst).Nodup ∧
    (∀ r ∈ stage1, r.status ≠ Status.ok →
      ∀ p ∈ labelToModel stage1, p.2 ≠ r.model) ∧
    (∀ r ∈ stage2Inputs stage1, r.status = Status.ok) ∧
    (∀ r ∈ stage3Inputs stage1, r.status = Status.ok) := by
  refine ⟨labelToModel_models stage1, ?_, ?_, ?_, ?_⟩
  · have : (labelToModel stage1).map Prod.fst =
        (List.range (okResponses stage1).length).map labelOf := by
      unfold labelToModel
      rw [List.map_map]
      rw [show ((fun p : String × String => p.1) ∘
          (fun p : Nat × MResp => (labelOf p.1, p.2.model))) =
        (labelOf ∘ Prod.fst) from rfl]
      rw [← List.map_map, List.enum_map_fst]
    rw [this]
    exact labelsUpTo_nodup _ hlen
  · intro r hr hstat p hp hmodel
    have hsnd : p.2 ∈ (okResponses stage1).map (fun r => r.model) := by
      rw [← labelToModel_models stage1]
      exact List.mem_map_of_mem Prod.snd hp
    rcases List.mem_map.mp hsnd with ⟨r', hr', hmod'⟩
    have hr'mem : r' ∈ stage1 := (List.mem_filter.mp hr').1
    have hr'ok : r'.status = Status.ok := by
      have := (List.mem_filter.mp hr').2
      simpa using this
    have : r' = r :=
      List.inj_on_of_nodup_map hnd hr'mem hr (by rw [hmod', hmodel])
    rw [this] at hr'ok
    exact hstat hr'ok
  · intro r hr
    have := (List.mem_filter.mp hr).2
    simpa using this
  · intro r hr
    have := (List.mem_filter.mp hr).2
    simpa using this

/-- C4 witness: a roster of three responses with one timeout in the
middle; labels `A`, `B` go to the two `ok` responses. -/
theorem claim_C4_witness :
    (okResponses [MResp.mk "alpha" "x" Status.ok,
      MResp.mk "beta" "" Status.timeout,
      MResp.mk "gamma" "y" Status.ok]).length ≤ 26 ∧
    (([MResp.mk "alpha" "x" Status.ok,
      MResp.mk "beta" "" Status.timeout,
      MResp.mk "gamma" "y" Status.ok].map (fun r => r.model)).Nodup) ∧
    (((labelToModel [MResp.mk "alpha" "x" Status.ok,
        MResp.mk "beta" "" Status.timeout,
        MResp.mk "gamma" "y" Status.ok]).map Prod.snd =
      (okResponses [MResp.mk "alpha" "x" Status.ok,
        MResp.mk "beta" "" Status.timeout,
        MResp.mk "gamma" "y" Status.ok]).map (fun r => r.model)) ∧
    ((labelToModel [MResp.mk "alpha" "x" Status.ok,
        MResp.mk "beta" "" Status.timeout,
        MResp.mk "gamma" "y" Status.ok]).map Prod.fst).Nodup ∧
    (∀ r ∈ [MResp.mk "alpha" "x" Status.ok,
        MResp.mk "beta" "" Status.timeout,
        MResp.mk "gamma" "y" Status.ok], r.status ≠ Status.ok →
      ∀ p ∈ labelToModel [MResp.mk "alpha" "x" Status.ok,
        MResp.mk "beta" "" Status.timeout,
        MResp.mk "gamma" "y" Status.ok], p.2 ≠ r.model) ∧
    (∀ r ∈ stage2Inputs [MResp.mk "alpha" "x" Status.ok,
        MResp.mk "beta" "" Status.timeout,
        MResp.mk "gamma" "y" Status.ok], r.status = Status.ok) ∧
    (∀ r ∈ stage3Inputs [MResp.mk "alpha" "x" Status.ok,
        MResp.mk "beta" "" Status.timeout,
        MResp.mk "gamma" "y" Status.ok], r.status = Status.ok)) :=
  ⟨by decide, by decide,
    claim_C4 [MResp.mk "alpha" "x" Status.ok,
      MResp.mk "beta" "" Status.timeout,
      MResp.mk "gamma" "y" Status.ok] (by decide) (by decide)⟩

end Council

namespace Storage

/-- One row of the `conversations` table (the columns
`list_conversations` touches). -/
structure Conv where
  id : String
  userId : String
  createdAt : String
  updatedAt : String
  title : String
  archived : Bool
  deriving DecidableEq, Repr

/-- One row of the `messages` table (only the foreign key matters to
`list_conversations`). -/
structure Msg where
  conversationId : String
  deriving DecidableEq, Repr

/-- The database state the storage layer reads and writes. -/
structure DB where
  convs : List Conv
  msgs : List Msg
  deriving DecidableEq, Repr

/-- The metadata dict `list_conversations` builds per conversation. -/
structure ConvMeta where
  id : String
  createdAt : String
  lastUpdated : String
  title : String
  messageCount : Nat
  archived : Bool
  deriving DecidableEq, Repr

/-- The per-conversation message count
(`select('id', count='exact').eq('conversation_id', …)`). -/
def msgCount (msgs : List Msg) (cid : String) : Nat :=
  (msgs.filter (fun m => m.conversationId == cid)).length

/-- The metadata record built for a kept conversation. -/
def metaOf (c : Conv) (count : Nat) : ConvMeta :=
  ⟨c.id, c.createdAt, c.updatedAt, c.title, count, c.archived⟩

/-- `table('conversations').delete().eq('id', cid)`. -/
def deleteConv (db : DB) (cid : String) : DB :=
  ⟨db.convs.filter (fun c => !(c.id == cid)), db.msgs⟩

/-- The `for conv in result.data` loop of `list_conversations`:
conversations with zero messages are deleted and skipped, the rest are
appended to the returned metadata list. -/
def listLoop : List Conv → DB → List ConvMeta → List ConvMeta × DB
  | [], db, acc => (acc, db)
  | c :: rest, db, acc =>
      if msgCount db.msgs c.id = 0 then
        listLoop rest (deleteConv db c.id) acc
      else
        listLoop rest db (acc ++ [metaOf c (msgCount db.msgs c.id)])

/-- `order('updated_at', desc=True)`: newest first. -/
def newerFirst (a b : Conv) : Prop :=
  b.updatedAt ≤ a.updatedAt

instance : DecidableRel newerFirst := fun a b =>
  inferInstanceAs (Decidable (b.updatedAt ≤ a.updatedAt))

/-- `list_conversations(user_id)`: select the user's conversations
newest-first, delete the empty ones as a side effect, and return the
metadata of the non-empty ones together with the resulting database
state. -/
def list_conversations (userId : String) (db : DB) :
    List ConvMeta × DB :=
  listLoop
    (List.insertionSort newerFirst
      (db.convs.filter (fun c => c.userId == userId)))
    db []

theorem listLoop_msgs (l : List Conv) (db : DB) (acc : List ConvMeta) :
    (listLoop l db acc).2.msgs = db.msgs := by
  induction l generalizing db acc with
  | nil => rfl
  | cons c rest ih =>
      rw [listLoop]
      by_cases hc : msgCount db.msgs c.id = 0
      · rw [if_pos hc, ih]
        rfl
      · rw [if_neg hc, ih]

theorem listLoop_convs (l : List Conv) (db : DB) (acc : List ConvMeta) :
    (listLoop l db acc).2.convs =
      db.convs.filter (fun x =>
        !(l.any (fun c => x.id == c.id && msgCount db.msgs c.id == 0))) := by
  induction l generalizing db acc with
  | nil => simp [listLoop]
  | cons c rest ih =>
      rw [listLoop]
      by_cases hc : msgCount db.msgs c.id = 0
      · rw [if_pos hc, ih]
        rw [show (deleteConv db c.id).msgs = db.msgs from rfl]
        rw [show (deleteConv db c.id).convs =
          db.convs.filter (fun x => !(x.id == c.id)) from rfl]
        rw [List.filter_filter]
        apply List.filter_congr
        intro x _
        cases hxc : x.id == c.id <;> simp [hxc, hc]
      · rw [if_neg hc, ih]
        apply List.filter_congr
        intro x _
        have : (msgCount db.msgs c.id == 0) = false := by
          simpa using hc
        simp [this]

theorem listLoop_res (l : List Conv) (db : DB) (acc : List ConvMeta) :
    (listLoop l db acc).1 =
      acc ++ (l.filter (fun c => !(msgCount db.msgs c.id == 0))).map
        (fun c => metaOf c (msgCount db.msgs c.id)) := by
  induction l generalizing db acc with
  | nil => simp [listLoop]
  | cons c rest ih =>
      rw [listLoop]
      by_cases hc : msgCount db.msgs c.id = 0
      · rw [if_pos hc, ih]
        rw [show (deleteConv db c.id).msgs = db.msgs from rfl]
        have : (msgCount db.msgs c.id == 0) = true := by
          simpa using hc
        simp [this]
      · rw [if_neg hc, ih]
        have : (msgCount db.msgs c.id == 0) = false := by
          simpa using hc
        simp [this]

/-- C10: `list_conversations` is not read-only — every conversation of
the user with zero messages is permanently deleted from storage and
omitted from the returned list, while every conversation of the user
with at least one message is left in storage unchanged and its
metadata is included in the result. -/
theorem claim_C10 (userId : String) (db : DB) :
    (∀ c ∈ db.convs, c.userId = userId → msgCount db.msgs c.id = 0 →
      (c ∉ (list_conversations userId db).2.convs ∧
        ∀ m ∈ (list_conversations userId db).1, m.id ≠ c.id)) ∧
    (∀ c ∈ db.convs, c.userId = userId → 0 < msgCount db.msgs c.id →
      (c ∈ (list_conversations userId db).2.convs ∧
        metaOf c (msgCount db.msgs c.id) ∈ (list_conversations userId db).1)) := by
  have hmem : ∀ c : Conv,
      c ∈ List.insertionSort newerFirst
          (db.convs.filter (fun c => c.userId == userId)) ↔
        (c ∈ db.convs ∧ c.userId = userId) := by
    intro c
    rw [(List.perm_insertionSort newerFirst _).mem_iff, List.mem_filter]
    simp
  constructor
  · intro c hc huser hcount
    have hord : c ∈ List.insertionSort newerFirst
        (db.convs.filter (fun c => c.userId == userId)) :=
      (hmem c).mpr ⟨hc, huser⟩
    constructor
    · intro habs
      rw [list_conversations, listLoop_convs] at habs
      have hpred := (List.mem_filter.mp habs).2
      have hany : (List.insertionSort newerFirst
          (db.convs.filter (fun c => c.userId == userId))).any
            (fun c' => c.id == c'.id && msgCount db.msgs c'.id == 0) = true := by
        rw [List.any_eq_true]
        exact ⟨c, hord, by simp [hcount]⟩
      rw [hany] at hpred
      exact Bool.noConfusion hpred
    · intro m hm heq
      rw [list_conversations, listLoop_res] at hm
      simp only [List.nil_append] at hm
      rcases List.mem_map.mp hm with ⟨c', hc', rfl⟩
      have hkeep := (List.mem_filter.mp hc').2
      have hid : c'.id = c.id := heq
      rw [hid, hcount] at hkeep
      simp at hkeep
  · intro c hc huser hcount
    have hord : c ∈ List.insertionSort newerFirst
        (db.convs.filter (fun c => c.userId == userId)) :=
      (hmem c).mpr ⟨hc, huser⟩
    constructor
    · rw [list_conversations, listLoop_convs]
      rw [List.mem_filter]
      refine ⟨hc, ?_⟩
      rw [Bool.not_eq_eq_eq_not, Bool.not_true, List.any_eq_false]
      intro c' hc'
      cases hxc : c.id == c'.id
      · simp
      · have : c'.id = c.id := (by simpa using hxc : c.id = c'.id).symm
        rw [this]
        simp
        omega
    · rw [list_conversations, listLoop_res]
      simp only [List.nil_append]
      apply List.mem_map_of_mem
      rw [List.mem_filter]
      refine ⟨hord, ?_⟩
      simp
      omega

/-- C10 witness: a database with one empty and one non-empty
conversation of the same user. -/
theorem claim_C10_witness :
    (Conv.mk "c0" "u" "2024-01-01" "2024-01-02" "Empty" false ∈
      (DB.mk [Conv.mk "c0" "u" "2024-01-01" "2024-01-02" "Empty" false,
        Conv.mk "c1" "u" "2024-01-01" "2024-01-03" "Full" false]
        [Msg.mk "c1"]).convs) ∧
    (Conv.mk "c0" "u" "2024-01-01" "2024-01-02" "Empty" false).userId = "u" ∧
    msgCount [Msg.mk "c1"] "c0" = 0 ∧
    (Conv.mk "c1" "u" "2024-01-01" "2024-01-03" "Full" false ∈
      (DB.mk [Conv.mk "c0" "u" "2024-01-01" "2024-01-02" "Empty" false,
        Conv.mk "c1" "u" "2024-01-01" "2024-01-03" "Full" false]
        [Msg.mk "c1"]).convs) ∧
    0 < msgCount [Msg.mk "c1"] "c1" ∧
    (Conv.mk "c0" "u" "2024-01-01" "2024-01-02" "Empty" false ∉
      (list_conversations "u"
        (DB.mk [Conv.mk "c0" "u" "2024-01-01" "2024-01-02" "Empty" false,
          Conv.mk "c1" "u" "2024-01-01" "2024-01-03" "Full" false]
          [Msg.mk "c1"])).2.convs ∧
      ∀ m ∈ (list_conversations "u"
        (DB.mk [Conv.mk "c0" "u" "2024-01-01" "2024-01-02" "Empty" false,
          Conv.mk "c1" "u" "2024-01-01" "2024-01-03" "Full" false]
          [Msg.mk "c1"])).1, m.id ≠ "c0") ∧
    (Conv.mk "c1" "u" "2024-01-01" "2024-01-03" "Full" false ∈
      (list_conversations "u"
        (DB.mk [Conv.mk "c0" "u" "2024-01-01" "2024-01-02" "Empty" false,
          Conv.mk "c1" "u" "2024-01-01" "2024-01-03" "Full" false]
          [Msg.mk "c1"])).2.convs ∧
      metaOf (Conv.mk "c1" "u" "2024-01-01" "2024-01-03" "Full" false)
          (msgCount [Msg.mk "c1"] "c1") ∈
        (list_conversations "u"
          (DB.mk [Conv.mk "c0" "u" "2024-01-01" "2024-01-02" "Empty" false,
            Conv.mk "c1" "u" "2024-01-01" "2024-01-03" "Full" false]
            [Msg.mk "c1"])).1) := by
  refine ⟨by decide, rfl, by decide, by decide, by decide, ?_, ?_⟩
  · exact (claim_C10 "u"
      (DB.mk [Conv.mk "c0" "u" "2024-01-01" "2024-01-02" "Empty" false,
        Conv.mk "c1" "u" "2024-01-01" "2024-01-03" "Full" false]
        [Msg.mk "c1"])).1
      (Conv.mk "c0" "u" "2024-01-01" "2024-01-02" "Empty" false)
      (by decide) rfl (by decide)
  · exact (claim_C10 "u"
      (DB.mk [Conv.mk "c0" "u" "2024-01-01" "2024-01-02" "Empty" false,
        Conv.mk "c1" "u" "2024-01-01" "2024-01-03" "Full" false]
        [Msg.mk "c1"])).2
      (Conv.mk "c1" "u" "2024-01-01" "2024-01-03" "Full" false)
      (by decide) rfl (by decide)

end Storage

namespace Curator

/-- A JSON value as Python's `json` module produces it.  Number
lexemes are kept verbatim; surrogate pairs in `\uXXXX` escapes are not
combined (the analysed inputs contain none). -/
inductive Json where
  | null
  | bool (b : Bool)
  | num (lexeme : String)
  | str (s : String)
  | arr (elems : List Json)
  | obj (fields : List (String × Json))

/-- JSON whitespace (Python `json`'s `_w = [ \t\n\r]*`). -/
def isJsonWs (c : Char) : Bool :=
  c == ' ' || c == '\t' || c == '\n' || c == '\r'

/-- Skip JSON whitespace. -/
def skipWs : List Char → List Char
  | [] => []
  | c :: rest => if isJsonWs c then skipWs rest else c :: rest

/-- Hexadecimal digit value. -/
def hexVal (c : Char) : Option Nat :=
  if '0' ≤ c && c ≤ '9' then some (c.toNat - 48)
  else if 'a' ≤ c && c ≤ 'f' then some (c.toNat - 87)
  else if 'A' ≤ c && c ≤ 'F' then some (c.toNat - 70)
  else none

/-- Scan a JSON string body after the opening quote, following
Python's `py_scanstring`: in strict mode an unescaped control
character (code < 0x20) is an error; with `strict=False` it is kept
verbatim.  Returns the decoded characters and the remaining input. -/
def scanString (strict : Bool) : Nat → List Char → Option (List Char × List Char)
  | 0, _ => none
  | _, [] => none
  | Nat.succ fuel, c :: rest =>
      if c == '"' then some ([], rest)
      else if c == '\\' then
        match rest with
        | [] => none
        | e :: rest2 =>
            if e == '"' then
              (scanString strict fuel rest2).map (fun p => ('"' :: p.1, p.2))
            else if e == '\\' then
              (scanString strict fuel rest2).map (fun p => ('\\' :: p.1, p.2))
            else if e == '/' then
              (scanString strict fuel rest2).map (fun p => ('/' :: p.1, p.2))
            else if e == 'b' then
              (scanString strict fuel rest2).map (fun p => (Char.ofNat 8 :: p.1, p.2))
            else if e == 'f' then
              (scanString strict fuel rest2).map (fun p => (Char.ofNat 12 :: p.1, p.2))
            else if e == 'n' then
              (scanString strict fuel rest2).map (fun p => ('\n' :: p.1, p.2))
            else if e == 'r' then
              (scanString strict fuel rest2).map (fun p => ('\r' :: p.1, p.2))
            else if e == 't' then
              (scanString strict fuel rest2).map (fun p => ('\t' :: p.1, p.2))
            else if e == 'u' then
              match rest2 with
              | h1 :: h2 :: h3 :: h4 :: rest3 =>
                  match hexVal h1, hexVal h2, hexVal h3, hexVal h4 with
                  | some a, some b, some c3, some d =>
                      (scanString strict fuel rest3).map
                        (fun p => (Char.ofNat (((a * 16 + b) * 16 + c3) * 16 + d) :: p.1, p.2))
                  | _, _, _, _ => none
              | _ => none
            else none
      else if strict && decide (c.toNat < 32) then none
      else (scanString strict fuel rest).map (fun p => (c :: p.1, p.2))

/-- ASCII decimal digit. -/
def isDigitB (c : Char) : Bool := '0' ≤ c && c ≤ '9'

/-- Split the leading run of digits. -/
def spanDigits : List Char → List Char × List Char
  | [] => ([], [])
  | c :: rest =>
      if isDigitB c then
        let p := spanDigits rest
        (c :: p.1, p.2)
      else ([], c :: rest)

/-- The integer part of Python `json`'s `NUMBER_RE`:
`(?:0|[1-9]\d*)` — a bare `0`, or a nonzero digit followed by
digits. -/
def scanIntPart : List Char → Option (List Char × List Char)
  | [] => none
  | c :: rest =>
      if c == '0' then some (['0'], rest)
      else if isDigitB c then
        let p := spanDigits rest
        some (c :: p.1, p.2)
      else none

/-- The optional fraction `(\.\d+)?`. -/
def scanFrac : List Char → List Char × List Char
  | '.' :: rest =>
      match spanDigits rest with
      | ([], _) => ([], '.' :: rest)
      | (ds, r) => ('.' :: ds, r)
  | cs => ([], cs)

/-- The optional exponent `([eE][-+]?\d+)?`. -/
def scanExp : List Char → List Char × List Char
  | c :: rest =>
      if c == 'e' || c == 'E' then
        match rest with
        | s :: rest2 =>
            if s == '+' || s == '-' then
              match spanDigits rest2 with
              | ([], _) => ([], c :: rest)
              | (ds, r) => (c :: s :: ds, r)
            else
              match spanDigits rest with
              | ([], _) => ([], c :: rest)
              | (ds, r) => (c :: ds, r)
        | [] => ([], [c])
      else ([], c :: rest)
  | [] => ([], [])

/-- Scan a JSON number lexeme (`NUMBER_RE`). -/
def scanNumber (cs : List Char) : Option (List Char × List Char) :=
  match cs with
  | '-' :: rest =>
      match scanIntPart rest with
      | none => none
      | some (ip, r1) =>
          let f := scanFrac r1
          let e := scanExp f.2
          some ('-' :: (ip ++ f.1 ++ e.1), e.2)
  | _ =>
      match scanIntPart cs with
      | none => none
      | some (ip, r1) =>
          let f := scanFrac r1
          let e := scanExp f.2
          some (ip ++ f.1 ++ e.1, e.2)

/-- What the recursive scanner is currently parsing. -/
inductive PJob where
  | value
  | members
  | elements
  deriving DecidableEq, Repr

/-- Result of one scanner call. -/
inductive PRes where
  | v (j : Json)
  | fs (l : List (String × Json))
  | es (l : List Json)

/-- The recursive descent of Python `json.scanner.py_make_scanner`,
fuel-bounded: `value` scans one JSON value, `members` the inside of an
object after its `{` (positioned at the first key or `}`), `elements`
the inside of an array after its `[` (positioned at the first value
or `]`). -/
def parseJ (strict : Bool) : Nat → PJob → List Char → Option (PRes × List Char)
  | 0, _, _ => none
  | Nat.succ fuel, PJob.value, cs =>
      match cs with
      | [] => none
      | '{' :: rest =>
          (match skipWs rest with
           | '}' :: r => some (PRes.v (Json.obj []), r)
           | cs1 =>
               match parseJ strict fuel PJob.members cs1 with
               | some (PRes.fs l, r) => some (PRes.v (Json.obj l), r)
               | _ => none)
      | '[' :: rest =>
          (match skipWs rest with
           | ']' :: r => some (PRes.v (Json.arr []), r)
           | cs1 =>
               match parseJ strict fuel PJob.elements cs1 with
               | some (PRes.es l, r) => some (PRes.v (Json.arr l), r)
               | _ => none)
      | '"' :: rest =>
          (match scanString strict fuel rest with
           | some (s, r) => some (PRes.v (Json.str (String.mk s)), r)
           | none => none)
      | 't' :: 'r' :: 'u' :: 'e' :: r => some (PRes.v (Json.bool true), r)
      | 'f' :: 'a' :: 'l' :: 's' :: 'e' :: r => some (PRes.v (Json.bool false), r)
      | 'n' :: 'u' :: 'l' :: 'l' :: r => some (PRes.v Json.null, r)
      | 'N' :: 'a' :: 'N' :: r => some (PRes.v (Json.num "NaN"), r)
      | 'I' :: 'n' :: 'f' :: 'i' :: 'n' :: 'i' :: 't' :: 'y' :: r =>
          some (PRes.v (Json.num "Infinity"), r)
      | '-' :: 'I' :: 'n' :: 'f' :: 'i' :: 'n' :: 'i' :: 't' :: 'y' :: r =>
          some (PRes.v (Json.num "-Infinity"), r)
      | cs' =>
          (match scanNumber cs' with
           | some (lex, r) => some (PRes.v (Json.num (String.mk lex)), r)
           | none => none)
  | Nat.succ fuel, PJob.members, cs =>
      (match cs with
       | '"' :: rest =>
           (match scanString strict fuel rest with
            | some (key, r1) =>
                (match skipWs r1 with
                 | ':' :: r2 =>
                     (match parseJ strict fuel PJob.value (skipWs r2) with
                      | some (PRes.v jv, r3) =>
                          (match skipWs r3 with
                           | ',' :: r4 =>
                               (match parseJ strict fuel PJob.members (skipWs r4) with
                                | some (PRes.fs l, r5) =>
                                    some (PRes.fs ((String.mk key, jv) :: l), r5)
                                | _ => none)
                           | '}' :: r4 =>
                               some (PRes.fs [(String.mk key, jv)], r4)
                           | _ => none)
                      | _ => none)
                 | _ => none)
            | none => none)
       | _ => none)
  | Nat.succ fuel, PJob.elements, cs =>
      (match parseJ strict fuel PJob.value cs with
       | some (PRes.v jv, r1) =>
           (match skipWs r1 with
            | ',' :: r2 =>
                (match parseJ strict fuel PJob.elements (skipWs r2) with
                 | some (PRes.es l, r3) => some (PRes.es (jv :: l), r3)
                 | _ => none)
            | ']' :: r2 => some (PRes.es [jv], r2)
            | _ => none)
       | _ => none)

/-- Scan one JSON value at the start of the input. -/
def parseValueAt (strict : Bool) (fuel : Nat) (cs : List Char) :
    Option (Json × List Char) :=
  match parseJ strict fuel PJob.value cs with
  | some (PRes.v j, r) => some (j, r)
  | _ => none

/-- `json.JSONDecoder(strict=False).raw_decode(s)`: scan one value
starting exactly at position 0 (no leading-whitespace skip), ignoring
whatever trails it; control characters are allowed inside strings. -/
def rawDecodeLenientL (cs : List Char) : Option Json :=
  match parseValueAt false (2 * cs.length + 4) cs with
  | some (j, _) => some j
  | none => none

/-- `json.loads(s)` with default (strict) settings: skip surrounding
whitespace, scan one value, and require the input to be fully
consumed. -/
def strictLoadsL (cs : List Char) : Option Json :=
  match parseValueAt true (2 * cs.length + 4) (skipWs cs) with
  | some (j, r) => if skipWs r = [] then some j else none
  | none => none

/-- `json.loads` on a string. -/
def strictLoads (s : String) : Option Json :=
  strictLoadsL s.toList

/-- The ASCII whitespace `str.strip()` removes. -/
def isPyStripWs (c : Char) : Bool :=
  c == ' ' || c == '\t' || c == '\n' || c == '\r' ||
    c == Char.ofNat 11 || c == Char.ofNat 12

/-- Drop leading Python whitespace. -/
def dropLeadingWs : List Char → List Char
  | [] => []
  | c :: rest => if isPyStripWs c then dropLeadingWs rest else c :: rest

/-- `content.strip()`. -/
def stripBoth (cs : List Char) : List Char :=
  (dropLeadingWs (dropLeadingWs cs).reverse).reverse

/-- `content.startswith('```')`. -/
def startsWithTicks : List Char → Bool
  | '`' :: '`' :: '`' :: _ => true
  | _ => false

/-- `re.sub(r'^```(?:json)?\n?', '', content)`. -/
def stripLeadFence : List Char → List Char
  | '`' :: '`' :: '`' :: rest =>
      (match
        (match rest with
         | 'j' :: 's' :: 'o' :: 'n' :: r => r
         | r => r) with
       | '\n' :: r => r
       | r => r)
  | cs => cs

/-- `re.sub(r'\n?```$', '', content)`. -/
def stripTrailFence (cs : List Char) : List Char :=
  match cs.reverse with
  | '`' :: '`' :: '`' :: r =>
      (match r with
       | '\n' :: r2 => r2.reverse
       | r2 => r2.reverse)
  | _ => cs

/-- The `\s` class of Python's `re` on the ASCII range. -/
def isReWs (c : Char) : Bool :=
  c == ' ' || c == '\t' || c == '\n' || c == '\r' ||
    c == Char.ofNat 11 || c == Char.ofNat 12

/-- Whether the input starts with `\s*[}\]]` — the lookahead of the
trailing-comma regex. -/
def wsThenBracket : List Char → Bool
  | [] => false
  | c :: rest =>
      if c == '}' || c == ']' then true
      else if isReWs c then wsThenBracket rest
      else false

/-- `re.sub(r',(\s*[}\]])', r'\1', content)`: drop every comma that is
followed by optional whitespace and a closing bracket — wherever it
occurs, including inside string literals. -/
def stripTrailingCommas : List Char → List Char
  | [] => []
  | c :: rest =>
      if c == ',' && wsThenBracket rest then stripTrailingCommas rest
      else c :: stripTrailingCommas rest

/-- The aggressive control-character cleaner of
`analyze_conversation_for_updates` (the character loop with
`in_string` / `escape_next` state): inside strings, control characters
other than tab become spaces; outside strings, control characters
other than `\n\r\t` are dropped. -/
def sanitize : Bool → Bool → List Char → List Char
  | _, _, [] => []
  | inString, escapeNext, c :: rest =>
      if escapeNext then c :: sanitize inString false rest
      else if c == '\\' && inString then c :: sanitize inString true rest
      else if c == '"' then c :: sanitize (!inString) false rest
      else if inString then
        if decide (c.toNat < 32) && !(c == '\t') then
          ' ' :: sanitize inString false rest
        else c :: sanitize inString false rest
      else if decide (32 ≤ c.toNat) || c == '\n' || c == '\r' || c == '\t' then
        c :: sanitize inString false rest
      else sanitize inString false rest

/-- The preprocessing `analyze_conversation_for_updates` applies
before its first parse attempt: `strip()`, markdown code-fence
removal, and unconditional trailing-comma stripping. -/
def preprocessL (cs : List Char) : List Char :=
  stripTrailingCommas
    (if startsWithTicks (stripBoth cs) then
      stripTrailFence (stripLeadFence (stripBoth cs))
     else stripBoth cs)

/-- The parsing pipeline of `analyze_conversation_for_updates`: the
preprocessed text is first parsed leniently
(`JSONDecoder(strict=False).raw_decode`); only if that raises is the
control-character cleaner applied, followed by a strict
`json.loads`.  Both tiers are pure functions of the text. -/
def parseCuratorL (cs : List Char) : Option Json :=
  match rawDecodeLenientL (preprocessL cs) with
  | some v => some v
  | none => strictLoadsL (sanitize false false (preprocessL cs))

/-- The pipeline on a string. -/
def parseCurator (s : String) : Option Json :=
  parseCuratorL s.toList

/-- The adversarial input: the valid JSON object text whose single
field `a` holds the three-character string value `x` comma
closing-brace. -/
def c7text : String :=
  String.mk ['{', '"', 'a', '"', ':', ' ', '"', 'x', ',', '}', '"', '}']

/-- The string value of the strict parse of `c7text`. -/
def c7valStrict : String := String.mk ['x', ',', '}']

/-- The string value the pipeline actually produces from `c7text`. -/
def c7valPipeline : String := String.mk ['x', '}']

/-- C7 counterexample: `c7text` is valid JSON, but the pipeline's
result differs from the strict parse of that exact text — the
unconditional trailing-comma regex fires inside the string literal
and removes the comma before the first parse attempt.  The
sanitize-and-retry tiers are not at fault: tier one already returns
the altered value. -/
theorem claim_C7_counterexample :
    strictLoads c7text = some (Json.obj [("a", Json.str c7valStrict)]) ∧
    parseCurator c7text = some (Json.obj [("a", Json.str c7valPipeline)]) ∧
    parseCurator c7text ≠ strictLoads c7text := by
  refine ⟨rfl, rfl, fun h => ?_⟩
  rw [show parseCurator c7text =
      some (Json.obj [("a", Json.str c7valPipeline)]) from rfl] at h
  rw [show strictLoads c7text =
      some (Json.obj [("a", Json.str c7valStrict)]) from rfl] at h
  simp [c7valPipeline, c7valStrict] at h

/-- C7 (amended): the parser is two-tier over a *preprocessed* text —
code-fence stripping and trailing-comma removal run unconditionally
before the first parse attempt (and can alter string contents of
valid JSON); the first tier is a lenient parse that accepts control
characters inside strings, and the control-character sanitize-and-
retry fallback runs exactly when the first tier fails; both tiers are
pure functions from text to an optional value. -/
theorem claim_C7 (text : String) :
    (∃ v, rawDecodeLenientL (preprocessL text.toList) = some v ∧
        parseCurator text = some v) ∨
    (rawDecodeLenientL (preprocessL text.toList) = none ∧
      parseCurator text =
        strictLoadsL (sanitize false false (preprocessL text.toList))) := by
  unfold parseCurator parseCuratorL
  cases h : rawDecodeLenientL (preprocessL text.toList) with
  | some v => exact Or.inl ⟨v, rfl, by simp [h]⟩
  | none => exact Or.inr ⟨rfl, by simp [h]⟩

end Curator

end LlmCouncil
